import Mathlib

/-!
Verification development for the BigQuery IPython directive layer
(`lib/datalab/gcp/datalab/_bigquery.py`): a shallow embedding in Lean 4 of
the dispatcher, config resolver, query resolver, UDF spec parser, LRU
object cache and paginated table viewer, with theorems settling the
specification's claims against the code.
-/

namespace Datalab

/-- Error kinds raised by the embedded code.  `attributeError` models a
Python `AttributeError` (raised in `expand_var` by the misspelled method
name `startwith`); `keyError` models indexing a dict with a missing key;
`cannotExpand` models the `Cannot expand variable $name` exception;
the remaining constructors model the directive layer's own `Exception`s. -/
inductive Err where
  | attributeError
  | keyError (k : String)
  | typeError
  | cannotExpand (name : String)
  | unexpectedCell
  | missingCell
  | usageError
  | missingSpec
  | malformedSpec
  | referenceNotFound (name : String)
  deriving Repr, DecidableEq

/-- Running `bind` on a success reduces to the continuation. -/
@[simp] theorem exceptOkBind {ε α β : Type} (a : α) (f : α → Except ε β) :
    (Except.ok a >>= f : Except ε β) = f a := rfl

/-- Running `bind` on a raised error short-circuits. -/
@[simp] theorem exceptErrorBind {ε α β : Type} (e : ε) (f : α → Except ε β) :
    ((Except.error e : Except ε α) >>= f) = .error e := rfl

/-- Running `map` over a success applies the function. -/
@[simp] theorem exceptMapOk {ε α β : Type} (f : α → β) (a : α) :
    Except.map f (Except.ok a : Except ε α) = .ok (f a) := rfl

/-- Running `map` over a raised error short-circuits. -/
@[simp] theorem exceptMapError {ε α β : Type} (f : α → β) (e : ε) :
    Except.map f (Except.error e : Except ε α) = .error e := rfl

/-- A dynamic Python value as it appears in a parsed cell body or in the
notebook environment: JSON/YAML scalars and containers, plus the opaque
session objects relevant here (realized `gcp.bigquery.Query` objects,
`Table`s, `FunctionCall`s, `UDF`s), identified by an id or name. -/
inductive Value where
  | str (s : String)
  | int (n : Int)
  | bool (b : Bool)
  | null
  | list (xs : List Value)
  | dict (entries : List (String × Value))
  | query (id : Nat)
  | table (name : String)
  | functionCall (name : String)
  | udfObj (name : String)
  deriving Repr

/-- The notebook environment / any Python dict with string keys, as an
ordered association list. -/
abbrev Env := List (String × Value)

/-- First-match association lookup (Python `d[k]` / `k in d`). -/
def envLookup (k : String) : Env → Option Value
  | [] => none
  | (k2, v) :: rest => if k2 = k then some v else envLookup k rest

/-- Python `v.startswith('$')`, written transparently on the character
list so that it reduces definitionally. -/
def startsWithDollar (s : String) : Bool :=
  match s.data with
  | c :: _ => c = '$'
  | [] => false

/-- Embeds `expand_var(v, env)` from `_parse_config`, faithfully.
The source reads
`if v.startswith('$'): v = v[1:]; if not v.startwith('$'): ...` —
`startwith` is a misspelling of `startswith`, so the attribute access
raises `AttributeError` for every string that starts with `$`, before the
environment is consulted.  Strings not starting with `$` pass through. -/
def expand_var (env : Env) (v : String) : Except Err Value :=
  if startsWithDollar v then
    -- `v = v[1:]` runs, then `v.startwith` raises AttributeError.
    .error .attributeError
  else .ok (.str v)

/-- The environment check and replacement that lines 306-309 of the source
intend (`if v in env: v = env[v] else raise`); kept only as documentation
of the unreachable tail of `expand_var` and not used by the embedding. -/
def expand_var_lookup (env : Env) (v : String) : Except Err Value :=
  match envLookup v env with
  | some w => .ok w
  | none => .error (.cannotExpand v)

mutual

/-- Embeds `replace_vars(config, env)` from `_parse_config`: recursively walks
dicts and lists; string values directly inside a dict or list are passed
through `expand_var`; nested dicts/lists are walked recursively; all other
values (including any scalar at top level) are left unchanged.  The Python
function mutates in place; the embedding returns the transformed tree.
The `isinstance` chain's final "leave unchanged" branch is spelled out
per constructor. -/
def replaceVars (env : Env) : Value → Except Err Value
  | .dict kvs => (replaceDictEntries env kvs).map Value.dict
  | .list xs => (replaceListItems env xs).map Value.list
  | .str s => .ok (.str s)
  | .int n => .ok (.int n)
  | .bool b => .ok (.bool b)
  | .null => .ok .null
  | .query i => .ok (.query i)
  | .table n => .ok (.table n)
  | .functionCall n => .ok (.functionCall n)
  | .udfObj n => .ok (.udfObj n)

/-- The dict branch of `replace_vars`: a value that is itself a dict or
list is walked recursively; a string value is expanded; any other value
is unchanged. -/
def replaceDictEntries (env : Env) : List (String × Value) → Except Err (List (String × Value))
  | [] => .ok []
  | (k, v) :: rest => do
    let v2 ← match v with
      | .dict kvs => (replaceDictEntries env kvs).map Value.dict
      | .list xs => (replaceListItems env xs).map Value.list
      | .str s => expand_var env s
      | .int n => .ok (.int n)
      | .bool b => .ok (.bool b)
      | .null => .ok .null
      | .query i => .ok (.query i)
      | .table n => .ok (.table n)
      | .functionCall n => .ok (.functionCall n)
      | .udfObj n => .ok (.udfObj n)
    let rest2 ← replaceDictEntries env rest
    .ok ((k, v2) :: rest2)

/-- The list branch of `replace_vars`. -/
def replaceListItems (env : Env) : List Value → Except Err (List Value)
  | [] => .ok []
  | v :: rest => do
    let v2 ← match v with
      | .dict kvs => (replaceDictEntries env kvs).map Value.dict
      | .list xs => (replaceListItems env xs).map Value.list
      | .str s => expand_var env s
      | .int n => .ok (.int n)
      | .bool b => .ok (.bool b)
      | .null => .ok .null
      | .query i => .ok (.query i)
      | .table n => .ok (.table n)
      | .functionCall n => .ok (.functionCall n)
      | .udfObj n => .ok (.udfObj n)
    let rest2 ← replaceListItems env rest
    .ok (v2 :: rest2)

end

/-- Embeds `_parse_config(config, env)`: `None` passes through; otherwise the body
text is parsed by the external JSON/YAML parser (the external
StructuredTextParser collaborator — the body is therefore given here
already parsed as a `Value`) and then `replace_vars` runs over the tree. -/
def parse_config (env : Env) : Option Value → Except Err (Option Value)
  | none => .ok none
  | some v => (replaceVars env v).map some

mutual

/-- Holds (`true`) iff the tree contains no scalar string beginning with `$`. -/
def noDollarV : Value → Bool
  | .dict kvs => noDollarD kvs
  | .list xs => noDollarL xs
  | .str s => !startsWithDollar s
  | _ => true

/-- Extends `noDollarV` over dict entries. -/
def noDollarD : List (String × Value) → Bool
  | [] => true
  | (_, v) :: rest => noDollarV v && noDollarD rest

/-- Extends `noDollarV` over list items. -/
def noDollarL : List Value → Bool
  | [] => true
  | v :: rest => noDollarV v && noDollarL rest

end

mutual

theorem replaceVars_id (env : Env) : ∀ v, noDollarV v = true → replaceVars env v = .ok v
  | .dict kvs, h => by
    have hd := replaceDictEntries_id env kvs (by simpa [noDollarV] using h)
    rw [replaceVars, hd]; rfl
  | .list xs, h => by
    have hl := replaceListItems_id env xs (by simpa [noDollarV] using h)
    rw [replaceVars, hl]; rfl
  | .str s, _ => by rw [replaceVars]
  | .int n, _ => by rw [replaceVars]
  | .bool b, _ => by rw [replaceVars]
  | .null, _ => by rw [replaceVars]
  | .query i, _ => by rw [replaceVars]
  | .table n, _ => by rw [replaceVars]
  | .functionCall n, _ => by rw [replaceVars]
  | .udfObj n, _ => by rw [replaceVars]

theorem replaceDictEntries_id (env : Env) :
    ∀ kvs, noDollarD kvs = true → replaceDictEntries env kvs = .ok kvs
  | [], _ => by rw [replaceDictEntries]
  | (k, v) :: rest, h => by
    have hv : noDollarV v = true := by
      have h2 := h; simp [noDollarD] at h2; exact h2.1
    have hrest := replaceDictEntries_id env rest
      (by have h2 := h; simp [noDollarD] at h2; exact h2.2)
    cases v with
    | dict kvs =>
      have hk := replaceDictEntries_id env kvs (by simpa [noDollarV] using hv)
      rw [replaceDictEntries, hk, hrest]; rfl
    | list xs =>
      have hk := replaceListItems_id env xs (by simpa [noDollarV] using hv)
      rw [replaceDictEntries, hk, hrest]; rfl
    | str s =>
      have hs : startsWithDollar s = false := by simpa [noDollarV] using hv
      rw [replaceDictEntries, hrest]
      simp [expand_var, hs]
    | int n => rw [replaceDictEntries, hrest]; rfl
    | bool b => rw [replaceDictEntries, hrest]; rfl
    | null => rw [replaceDictEntries, hrest]; rfl
    | query i => rw [replaceDictEntries, hrest]; rfl
    | table n => rw [replaceDictEntries, hrest]; rfl
    | functionCall n => rw [replaceDictEntries, hrest]; rfl
    | udfObj n => rw [replaceDictEntries, hrest]; rfl

theorem replaceListItems_id (env : Env) :
    ∀ xs, noDollarL xs = true → replaceListItems env xs = .ok xs
  | [], _ => by rw [replaceListItems]
  | v :: rest, h => by
    have hv : noDollarV v = true := by
      have h2 := h; simp [noDollarL] at h2; exact h2.1
    have hrest := replaceListItems_id env rest
      (by have h2 := h; simp [noDollarL] at h2; exact h2.2)
    cases v with
    | dict kvs =>
      have hk := replaceDictEntries_id env kvs (by simpa [noDollarV] using hv)
      rw [replaceListItems, hk, hrest]; rfl
    | list xs =>
      have hk := replaceListItems_id env xs (by simpa [noDollarV] using hv)
      rw [replaceListItems, hk, hrest]; rfl
    | str s =>
      have hs : startsWithDollar s = false := by simpa [noDollarV] using hv
      rw [replaceListItems, hrest]
      simp [expand_var, hs]
    | int n => rw [replaceListItems, hrest]; rfl
    | bool b => rw [replaceListItems, hrest]; rfl
    | null => rw [replaceListItems, hrest]; rfl
    | query i => rw [replaceListItems, hrest]; rfl
    | table n => rw [replaceListItems, hrest]; rfl
    | functionCall n => rw [replaceListItems, hrest]; rfl
    | udfObj n => rw [replaceListItems, hrest]; rfl

end

/-! ## Dispatcher (`_dispatch_handler`) -/

/-- What `_dispatch_handler` does after its checks pass: call the handler
either as `handler(args)` (line-magic arity) or `handler(args, cell)`
(cell-magic arity). -/
inductive HandlerCall (α : Type) where
  | withoutBody (args : α)
  | withBody (args : α) (cell : Option String)
  deriving Repr, DecidableEq

/-- Python truthiness of the optional cell text: `None` and `''` are falsy. -/
def cellTruthy : Option String → Bool
  | none => false
  | some s => s ≠ ""

/-- Python `cell and len(cell.strip())` as a Bool: the cell is truthy and
contains a non-whitespace character. -/
def stripNonEmpty : Option String → Bool
  | none => false
  | some s => s ≠ "" && !(s.data.all Char.isWhitespace)

/-- Embeds `_dispatch_handler(args, cell, parser, handler, cell_required,
cell_prohibited)`: if prohibited and the cell is non-empty after stripping,
raise; if required and the cell is falsy, raise; otherwise call the
handler with the arity fixed by the registration (`handler(args)` for
prohibited registrations, `handler(args, cell)` otherwise).  The
`parser.print_help()` side effect before each raise is display-only and
not modelled. -/
def dispatch_handler {α : Type} (args : α) (cell : Option String)
    (cell_required cell_prohibited : Bool) : Except Err (HandlerCall α) :=
  if cell_prohibited then
    if stripNonEmpty cell then .error .unexpectedCell
    else .ok (.withoutBody args)
  else if cell_required && !cellTruthy cell then .error .missingCell
  else .ok (.withBody args cell)

/-- The three cell modes of the spec's CommandSpec. -/
inductive CellMode where
  | required | prohibited | optional
  deriving Repr, DecidableEq

/-- How `_create_bigquery_parser` registers each mode: `cell_required=True`
for REQUIRED (udf), `cell_prohibited=True` for PROHIBITED (dryrun, table,
schema, datasets, tables, extract), neither for OPTIONAL (sample, execute,
pipeline, load). -/
def modeFlags : CellMode → Bool × Bool
  | .required => (true, false)
  | .prohibited => (false, true)
  | .optional => (false, false)

/-- Dispatch under a registered cell mode. -/
def dispatch {α : Type} (mode : CellMode) (args : α) (cell : Option String) :
    Except Err (HandlerCall α) :=
  dispatch_handler args cell (modeFlags mode).1 (modeFlags mode).2

/-! ## Paginated viewer (`_table_viewer`, lines 721-730) -/

/-- The two chart styles the viewer emits: `'table'` (single page) or
`'paged_table'`. -/
inductive ChartMode where
  | table | pagedTable
  deriving Repr, DecidableEq

/-- The page-state computation of `_table_viewer`: `total_count` starts as
the table's reported length (negative when unknown); when unknown and the
fetched batch was smaller than a page, the total becomes the fetched
count; the chart is `'table'` iff `0 <= total_count <= rows_per_page`. -/
def computePageState (totalCount fetchedCount rowsPerPage : Int) : Int × ChartMode :=
  let total :=
    if totalCount < 0 then
      if fetchedCount < rowsPerPage then fetchedCount else totalCount
    else totalCount
  (total, if 0 ≤ total ∧ total ≤ rowsPerPage then .table else .pagedTable)

/-! ## Warehouse job outcome reporting (`_extract_line` lines 634-642,
`_load_cell` lines 662-673) -/

/-- A completed warehouse extract/load job as this layer observes it. -/
structure Job where
  failed : Bool
  fatal_error : String
  errors : List String
  deriving Repr, DecidableEq

/-- The value the handler returns after the job completes: a descriptive
message (`'<op> failed: ...'` or `'<op> completed with errors: ...'`) or
Python's implicit `None` on clean success. -/
inductive JobReport where
  | failureMsg (op : String) (fatal : String)
  | completedWithErrors (op : String) (errs : List String)
  | noneResult
  deriving Repr, DecidableEq

/-- The tail of `_extract_line` once the extract job has completed:
`if job.failed: return 'Extract failed: ...'; elif job.errors: return
'Extract completed with errors: ...'` (falling through returns `None`).
No exception is raised on either path. -/
def extract_job_report (job : Job) : Except Err JobReport :=
  if job.failed then .ok (.failureMsg "Extract" job.fatal_error)
  else if job.errors ≠ [] then .ok (.completedWithErrors "Extract" job.errors)
  else .ok .noneResult

/-- The tail of `_load_cell` once the load job has completed, identical in
shape to the extract tail. -/
def load_job_report (job : Job) : Except Err JobReport :=
  if job.failed then .ok (.failureMsg "Load" job.fatal_error)
  else if job.errors ≠ [] then .ok (.completedWithErrors "Load" job.errors)
  else .ok .noneResult

/-! ## UDF spec parser (`_udf_cell`) -/

/-- The character `{`. -/
def lbrace : Char := Char.ofNat 123

/-- The character `}`. -/
def rbrace : Char := Char.ofNat 125

/-- Matches `[^\x7d]` — any character other than the closing brace. -/
def notRBrace (c : Char) : Bool := c ≠ rbrace

/-- Embeds `re.findall(r'\x7b\x7b([^\x7d]+)\x7d\x7d', js)`: scan left to right;
at a position starting with two `\x7b`, take the maximal nonempty run of
non-`\x7d` characters; if the next two characters are `\x7d\x7d` the run
is a captured group and scanning resumes after the match, otherwise (the
pattern cannot match at this position, greedy `+` admits no backtrack
since the run contains no `\x7d`) scanning resumes one character later. -/
def findSpecs : List Char → List (List Char)
  | [] => []
  | [_] => []
  | a :: b :: rest =>
    if a = lbrace ∧ b = lbrace then
      let run := rest.takeWhile notRBrace
      let rest2 := rest.dropWhile notRBrace
      if run ≠ [] ∧ rest2.head? = some rbrace ∧ rest2.tail.head? = some rbrace then
        run :: findSpecs rest2.tail.tail
      else findSpecs (b :: rest)
    else findSpecs (b :: rest)
termination_by l => l.length
decreasing_by
  all_goals simp
  · have h2 : (rest.dropWhile notRBrace).length ≤ rest.length :=
      (List.dropWhile_sublist notRBrace).length_le
    omega

/-- Matches `[a-z_]` under `re.IGNORECASE`. -/
def isIdentStart (c : Char) : Bool := c.isAlpha || c = '_'

/-- Matches `[a-z0-9_]` under `re.IGNORECASE`. -/
def isIdentCont (c : Char) : Bool := c.isAlpha || c.isDigit || c = '_'

/-- Embeds `re.findall(r'[a-z_][a-z0-9_]*', s, flags=re.IGNORECASE)`: maximal
identifier tokens, scanned left to right. -/
def findTokens : List Char → List String
  | [] => []
  | c :: rest =>
    if isIdentStart c then
      String.mk (c :: rest.takeWhile isIdentCont) :: findTokens (rest.dropWhile isIdentCont)
    else findTokens rest
termination_by l => l.length
decreasing_by
  all_goals simp
  · have h2 : (rest.dropWhile isIdentCont).length ≤ rest.length :=
      (List.dropWhile_sublist isIdentCont).length_le
    omega

/-- Embeds `zip(parts[0::2], parts[1::2])` on an even-length list: consecutive
pairing. -/
def pairUp {α : Type} : List α → List (α × α)
  | a :: b :: rest => (a, b) :: pairUp rest
  | _ => []

/-- The object `gcp.bigquery.UDF(inputs, outputs, variable_name, js)`
built by `_udf_cell`. -/
structure UDFSpec where
  inputs : List (String × String)
  outputs : List (String × String)
  name : String
  js : String
  deriving Repr, DecidableEq

/-- Embeds `_udf_cell(args, js)` up to the construction of the UDF object: a
falsy module name raises; fewer than two `\x7b\x7b...\x7d\x7d` groups
raise the missing-spec error; an odd identifier-token count in the first
(input) or second (output) group raises the malformed-spec error;
otherwise the tokens of each group are paired consecutively as
(fieldName, fieldType).  The final environment store
`_notebook_environment()[variable_name] = udf` is the hosting session's
side effect and is not part of the parse. -/
def udf_cell (moduleName : String) (js : String) : Except Err UDFSpec :=
  if moduleName = "" then .error .usageError
  else
    match findSpecs js.data with
    | s0 :: s1 :: _ =>
      let ip := findTokens s0
      if ip.length % 2 ≠ 0 then .error .malformedSpec
      else
        let op := findTokens s1
        if op.length % 2 ≠ 0 then .error .malformedSpec
        else .ok ⟨pairUp ip, pairUp op, moduleName, js⟩
    | _ => .error .missingSpec

/-! ## Query resolver (`_get_query_argument`) and handlers -/

/-- Python `args['k']` on the parsed-arguments dict: `KeyError` when the
key was never set by the command's argument schema. -/
def argGet (args : Env) (k : String) : Except Err Value :=
  match envLookup k args with
  | some v => .ok v
  | none => .error (.keyError k)

/-- Python truthiness of a `Value` (`if config:` etc.): empty containers,
empty strings, zero, `False` and `None` are falsy; session objects are
truthy. -/
def truthy : Value → Bool
  | .str s => s ≠ ""
  | .int n => n ≠ 0
  | .bool b => b
  | .null => false
  | .list xs => !xs.isEmpty
  | .dict kvs => !kvs.isEmpty
  | _ => true

/-- Python `v == 'lit'` for a dynamic value: true only for the equal
string, false (not an error) for any other value. -/
def valueEqStr (v : Value) (lit : String) : Bool :=
  match v with
  | .str s => s = lit
  | _ => false

/-- Modelled from the spec: `gcp._util.get_item(env, name)`; `gcp._util`
is not under src; the spec's Environment accessor reads session bindings
by name, so a string name is looked up in the environment and any
non-string name yields nothing. -/
def get_notebook_item (env : Env) (name : Value) : Option Value :=
  match name with
  | .str s => envLookup s env
  | _ => none

/-- A query object as `_get_query_argument` returns it: either the
already-realized `gcp.bigquery.Query` found in the environment, or a new
`gcp.bigquery.Query(templateText, **mergedParams)`. -/
inductive QueryObj where
  | bound (id : Nat)
  | built (sql : String) (params : Env)
  deriving Repr

/-- The external `gcp.data.SqlModule.get_sql_statement_with_environment`
collaborator: from the looked-up item and the current environment it
produces the SQL template text and its default parameter environment, or
raises. -/
abbrev TemplateResolver := Option Value → Env → Except Err (String × Env)

/-- Python `d[k] = v`: replace the first binding of `k` or append. -/
def setKey (k : String) (v : Value) : Env → Env
  | [] => [(k, v)]
  | (k2, w) :: rest => if k2 = k then (k, v) :: rest else (k2, w) :: setKey k v rest

/-- Python `base.update(overrides)`: later keys win over earlier ones. -/
def updateEnv (base : Env) (overrides : Env) : Env :=
  overrides.foldl (fun b kv => setKey kv.1 kv.2 b) base

/-- Embeds `_get_query_argument(args, config, env)`: look up `args['sql']` in the
environment; an already-realized Query is returned as-is (the override
config is not applied); otherwise the external template resolver supplies
`(text, defaultEnv)`, a truthy config dict is merged over the defaults
(`env.update(config)`, config winning), and a new query is built. -/
def get_query_argument (tmpl : TemplateResolver) (args : Env) (config : Option Value)
    (env : Env) : Except Err QueryObj := do
  let sqlArg ← argGet args "sql"
  match get_notebook_item env sqlArg with
  | some (.query id) => .ok (.bound id)
  | item =>
    match tmpl item env with
    | .error e => .error e
    | .ok (text, tenv) =>
      match config with
      | some cfg =>
        if truthy cfg then
          match cfg with
          | .dict kvs => .ok (.built text (updateEnv tenv kvs))
          | _ => .error .typeError
        else .ok (.built text tenv)
      | none => .ok (.built text tenv)

/-- The sampling object `_sample_cell` builds from its arguments; field,
percent and count are passed through as the dynamic values the parsed
arguments hold. -/
inductive Sampling where
  | random (percent count : Value)
  | hashed (field percent count : Value)
  | sorted (field : Value) (ascending : Bool) (count : Value)
  | defaultSampling (count : Value)
  deriving Repr

/-- Embeds `_sample_cell(args, config)` up to the external `query.sample` call:
parse the body against the full notebook environment, resolve the query,
then pick the sampling from `args['method']`.  Returns the resolved query
and the sampling descriptor handed to the collaborator. -/
def sample_cell (tmpl : TemplateResolver) (args : Env) (cell : Option Value)
    (env : Env) : Except Err (QueryObj × Sampling) := do
  let config ← parse_config env cell
  let query ← get_query_argument tmpl args config env
  let count ← argGet args "count"
  let method ← argGet args "method"
  if valueEqStr method "random" then
    let percent ← argGet args "percent"
    .ok (query, .random percent count)
  else if valueEqStr method "hashed" then
    let field ← argGet args "field"
    let percent ← argGet args "percent"
    .ok (query, .hashed field percent count)
  else if valueEqStr method "sorted" then
    let order ← argGet args "order"
    let field ← argGet args "field"
    .ok (query, .sorted field (valueEqStr order "ascending") count)
  else if valueEqStr method "limit" then
    .ok (query, .defaultSampling count)
  else
    .ok (query, .defaultSampling count)

/-- The ParsedArgs of `%%bigquery sample -c 5 -m random -p 10 -q name`,
with the subparser defaults for the unset flags `--field` and `--order`. -/
def sampleInvocationArgs (name : String) : Env :=
  [("sql", .str name), ("count", .int 5), ("method", .str "random"),
   ("percent", .int 10), ("field", .null), ("order", .str "ascending")]

/-! ## Pipeline handler (`_pipeline_cell`) -/

/-- Tests `isinstance(value, gcp.bigquery._udf.FunctionCall)`. -/
def isFunctionCall : Value → Bool
  | .functionCall _ => true
  | _ => false

/-- The fresh environment `_pipeline_cell` builds for run/dryrun: only the
session bindings whose values are UDF FunctionCall objects. -/
def filterFunctionCalls (env : Env) : Env :=
  env.filter (fun kv => isFunctionCall kv.2)

/-- What `_pipeline_cell` returns: the deploy placeholder message, a
dry-run descriptor, a run descriptor (query, target, mode, `use_cache`,
`allow_large_results`) for the external execute call, or Python's
implicit `None`. -/
inductive PipelineResult where
  | deployMsg
  | dryrunStats (q : QueryObj)
  | runResults (q : QueryObj) (target mode : Value) (useCache allowLarge : Bool)
  | noneResult
  deriving Repr

/-- Embeds `_pipeline_cell(args, config)`: `deploy` short-circuits; otherwise the
body is parsed and the query resolved against the FunctionCall-only
environment (not the full session environment), and the action selects a
dry run or an execution. -/
def pipeline_cell (tmpl : TemplateResolver) (args : Env) (cell : Option Value)
    (sessionEnv : Env) : Except Err PipelineResult := do
  let action ← argGet args "action"
  if valueEqStr action "deploy" then .ok .deployMsg
  else
    let env := filterFunctionCalls sessionEnv
    let config ← parse_config env cell
    let query ← get_query_argument tmpl args config env
    if valueEqStr action "dryrun" then .ok (.dryrunStats query)
    else if valueEqStr action "run" then
      let target ← argGet args "target"
      let mode ← argGet args "mode"
      let nocache ← argGet args "nocache"
      let large ← argGet args "large"
      .ok (.runResults query target mode (!truthy nocache) (truthy large))
    else .ok .noneResult

/-- ParsedArgs of `%%bigquery pipeline -q q1 run` with the pipeline
subparser's defaults for the unset flags. -/
def pipelineInvocationArgs : Env :=
  [("name", .null), ("nocache", .bool false), ("mode", .str "create"),
   ("large", .bool false), ("sql", .str "q1"), ("target", .null),
   ("action", .str "run")]

/-! ## Table line handler (`_table_line`) -/

/-- The ParsedArgs the table subparser produces: only `--rows` (int,
default 25) and `--cols`; no positional `table` argument is declared, so
no `table` key is ever set. -/
def tableParsedArgs (rows : Int) (cols : Option String) : Env :=
  [("rows", .int rows),
   ("cols", match cols with | some s => .str s | none => .null)]

/-- What `_table_line` would return: the rendered viewer (table name,
rows-per-page, restricted field list) or the "%s does not exist"
message. -/
inductive TableLineResult where
  | rendered (tableName : String) (rowsPerPage : Value) (fields : Option (List String))
  | doesNotExist (name : Value)
  deriving Repr

/-- Embeds `_table_line(args)`: its first action is `name = args['table']`; then
`_get_table` (here the collaborator `getTable`, returning the table's name
and its `exists()` flag) and either the `_table_viewer` rendering branch
or the does-not-exist message. -/
def table_line (getTable : Value → Option (String × Bool)) (args : Env) :
    Except Err TableLineResult := do
  let nameV ← argGet args "table"
  match getTable nameV with
  | some (tname, texists) =>
    if texists then
      let colsV ← argGet args "cols"
      let fields ←
        match colsV with
        | .str s => .ok (if s ≠ "" then some (s.split (fun c => c = ',')) else none)
        | .null => .ok (none : Option (List String))
        | _ => .error .attributeError
      let rowsV ← argGet args "rows"
      .ok (.rendered tname rowsV fields)
    else .ok (.doesNotExist nameV)
  | none => .ok (.doesNotExist nameV)

/-! ## LRU object cache (`_table_cache = gcp._util.LRUCache(10)`) -/

/-- Modelled from the spec: `gcp._util.LRUCache` itself is not under src
(only its instantiation `_table_cache = gcp._util.LRUCache(10)` and its
uses in `_get_table` are).  The cache state is the entry list ordered
most-recently-touched first; handles are opaque `Nat`s. -/
abbrev Cache := List (String × Nat)

/-- The fixed capacity of `_table_cache`. -/
def cacheCapacity : Nat := 10

/-- The names currently cached, most recently touched first. -/
def cacheKeys (c : Cache) : List String := c.map Prod.fst

/-- Remove the first entry bound to `k`, if any. -/
def cacheEraseKey (k : String) : Cache → Cache
  | [] => []
  | (k2, h) :: rest => if k2 = k then rest else (k2, h) :: cacheEraseKey k rest

/-- Find the handle bound to `k`, if any. -/
def cacheFind (k : String) : Cache → Option Nat
  | [] => none
  | (k2, h) :: rest => if k2 = k then some h else cacheFind k rest

/-- Modelled from the spec: `get(name)` returns the handle on a hit and
touches the entry (moves it to the front); a miss changes nothing. -/
def cacheGet (k : String) (c : Cache) : Option Nat × Cache :=
  match cacheFind k c with
  | some h => (some h, (k, h) :: cacheEraseKey k c)
  | none => (none, c)

/-- Modelled from the spec: `put(name, handle)` inserts or refreshes the
entry at the front; if the entry count then exceeds the capacity, the
least-recently-touched entry (the last) is evicted. -/
def cachePut (k : String) (h : Nat) (c : Cache) : Cache :=
  let c2 := (k, h) :: cacheEraseKey k c
  if cacheCapacity < c2.length then c2.dropLast else c2

/-- A cache operation, as issued by `_get_table`. -/
inductive CacheOp where
  | get (k : String)
  | put (k : String) (h : Nat)

/-- One cache operation on the state. -/
def cacheStep (c : Cache) : CacheOp → Cache
  | .get k => (cacheGet k c).2
  | .put k h => cachePut k h c

/-- Run a sequence of operations from the empty cache the module
initializes at load. -/
def cacheRun (ops : List CacheOp) : Cache := ops.foldl cacheStep []

/-! ## Claim theorems -/

/-- C1 (counterexample to the claim as stated): on `{"a": "$x"}`,
`substitute` raises `AttributeError` whether or not `x` is bound — with
`{x: 5}` it does not return `{"a": 5}`, and with `{}` it does not raise
the unresolved-variable error — because `expand_var` invokes the
misspelled string method `startwith` on every `$`-prefixed scalar before
the environment is consulted. -/
theorem claim_C1_substitute_attribute_error :
    replaceVars [("x", Value.int 5)] (.dict [("a", .str "$x")]) =
      .error .attributeError ∧
    replaceVars [] (.dict [("a", .str "$x")]) = .error .attributeError := by
  constructor
  · rw [replaceVars, replaceDictEntries]; rfl
  · rw [replaceVars, replaceDictEntries]; rfl

/-- C8: on a ConfigNode containing no `$`-prefixed scalar string,
`substitute` (with any environment) returns the node unchanged, and
applying it twice equals applying it once. -/
theorem claim_C8_substitute_idempotent (env : Env) (v : Value)
    (h : noDollarV v = true) :
    replaceVars env v = .ok v ∧
    (replaceVars env v).bind (replaceVars env) = replaceVars env v := by
  have h1 := replaceVars_id env v h
  refine ⟨h1, ?_⟩
  rw [h1]
  show replaceVars env v = Except.ok v
  exact h1

/-- Witness for C8 at a concrete variable-free node and environment. -/
theorem claim_C8_substitute_idempotent_witness :
    noDollarV (.dict [("a", .str "hello"), ("b", .int 3),
      ("c", .list [.str "w", .null])]) = true ∧
    (replaceVars [("x", Value.int 5)] (.dict [("a", .str "hello"), ("b", .int 3),
        ("c", .list [.str "w", .null])]) =
      .ok (.dict [("a", .str "hello"), ("b", .int 3),
        ("c", .list [.str "w", .null])]) ∧
    (replaceVars [("x", Value.int 5)] (.dict [("a", .str "hello"), ("b", .int 3),
        ("c", .list [.str "w", .null])])).bind (replaceVars [("x", Value.int 5)]) =
      replaceVars [("x", Value.int 5)] (.dict [("a", .str "hello"), ("b", .int 3),
        ("c", .list [.str "w", .null])])) :=
  ⟨by simp [noDollarV, noDollarD, noDollarL, startsWithDollar],
   claim_C8_substitute_idempotent _ _
     (by simp [noDollarV, noDollarD, noDollarL, startsWithDollar])⟩

/-- C3: dispatch with PROHIBITED and a body non-empty after trimming
raises the unexpected-body error; with REQUIRED and an empty (falsy) body
raises the missing-body error; otherwise the handler is called with the
fixed per-registration arity — without a body parameter for PROHIBITED,
with it for REQUIRED/OPTIONAL. -/
theorem claim_C3_dispatch_cell_mode (α : Type) (args : α) (cell : Option String) :
    (stripNonEmpty cell = true →
      dispatch .prohibited args cell = .error .unexpectedCell) ∧
    ((cell = none ∨ cell = some "") →
      dispatch .required args cell = .error .missingCell) ∧
    (stripNonEmpty cell = false →
      dispatch .prohibited args cell = .ok (.withoutBody args)) ∧
    (cellTruthy cell = true →
      dispatch .required args cell = .ok (.withBody args cell)) ∧
    dispatch .optional args cell = .ok (.withBody args cell) := by
  refine ⟨?_, ?_, ?_, ?_, ?_⟩
  · intro h; simp [dispatch, dispatch_handler, modeFlags, h]
  · rintro (rfl | rfl) <;> simp [dispatch, dispatch_handler, modeFlags, cellTruthy]
  · intro h; simp [dispatch, dispatch_handler, modeFlags, h]
  · intro h; simp [dispatch, dispatch_handler, modeFlags, h]
  · simp [dispatch, dispatch_handler, modeFlags]

/-- Witness for C3 at concrete cells: a prohibited command with body
`" x "`, a required command with no body, an optional command with a body. -/
theorem claim_C3_dispatch_cell_mode_witness :
    dispatch .prohibited (0 : Nat) (some " x ") = .error .unexpectedCell ∧
    dispatch .required (0 : Nat) (none : Option String) = .error .missingCell ∧
    dispatch .optional (0 : Nat) (some "body") = .ok (.withBody 0 (some "body")) :=
  ⟨(claim_C3_dispatch_cell_mode Nat 0 (some " x ")).1 (by rfl),
   (claim_C3_dispatch_cell_mode Nat 0 none).2.1 (Or.inl rfl),
   (claim_C3_dispatch_cell_mode Nat 0 (some "body")).2.2.2.2⟩

/-- C5: a known non-negative row-count hint is used as the total; an
unknown (negative) hint with a fetched batch smaller than a page makes
the total the fetched count, otherwise the total stays the unknown hint;
the chart mode is the single-page `'table'` exactly when
`0 ≤ total ≤ rowsPerPage`; and the spec's two examples hold. -/
theorem claim_C5_page_state (hint fetched per : Int) :
    (0 ≤ hint → (computePageState hint fetched per).1 = hint) ∧
    (hint < 0 → fetched < per → (computePageState hint fetched per).1 = fetched) ∧
    (hint < 0 → ¬fetched < per → (computePageState hint fetched per).1 = hint) ∧
    ((computePageState hint fetched per).2 = .table ↔
      0 ≤ (computePageState hint fetched per).1 ∧
        (computePageState hint fetched per).1 ≤ per) ∧
    computePageState (-1) 3 25 = (3, .table) ∧
    (computePageState 1000 25 25).2 = .pagedTable := by
  refine ⟨?_, ?_, ?_, ?_, by rfl, by rfl⟩
  · intro h; simp [computePageState]; omega
  · intro h1 h2; simp [computePageState]; omega
  · intro h1 h2; simp [computePageState]; omega
  · simp only [computePageState]
    split <;> simp_all

/-- Witness for C5 at the spec's first example. -/
theorem claim_C5_page_state_witness :
    (computePageState (-1) 3 25).1 = 3 :=
  (claim_C5_page_state (-1) 3 25).2.1 (by norm_num) (by norm_num)

/-- C7: for any completed extract or load job, a `failed` job yields a
returned descriptive failure result naming the fatal error (never a
raised exception), and a non-failed job with non-fatal `errors` yields a
returned "completed with errors" result carrying those errors; every job
outcome is returned, none is raised. -/
theorem claim_C7_job_outcomes (job : Job) :
    (job.failed = true →
      extract_job_report job = .ok (.failureMsg "Extract" job.fatal_error) ∧
      load_job_report job = .ok (.failureMsg "Load" job.fatal_error)) ∧
    (job.failed = false → job.errors ≠ [] →
      extract_job_report job = .ok (.completedWithErrors "Extract" job.errors) ∧
      load_job_report job = .ok (.completedWithErrors "Load" job.errors)) ∧
    (∃ r, extract_job_report job = .ok r) ∧
    (∃ r, load_job_report job = .ok r) := by
  refine ⟨?_, ?_, ?_, ?_⟩
  · intro h; constructor <;> simp [extract_job_report, load_job_report, h]
  · intro h1 h2; constructor <;> simp [extract_job_report, load_job_report, h1, h2]
  · simp only [extract_job_report]
    split
    · exact ⟨_, rfl⟩
    · split
      · exact ⟨_, rfl⟩
      · exact ⟨_, rfl⟩
  · simp only [load_job_report]
    split
    · exact ⟨_, rfl⟩
    · split
      · exact ⟨_, rfl⟩
      · exact ⟨_, rfl⟩

/-- C4: fewer than two bracket groups in the UDF source raise the
missing-spec error; with at least two groups, an odd identifier-token
count in the first or second group raises the malformed-spec error, and
otherwise the tokens of the first group paired consecutively form the
input field list and those of the second the output field list; in
particular the spec's example parses to inputs (a,int),(b,string) and
outputs (c,float). -/
theorem claim_C4_udf_spec_extraction (js name : String) (hname : name ≠ "") :
    ((findSpecs js.data).length < 2 → udf_cell name js = .error .missingSpec) ∧
    (∀ s0 s1 r, findSpecs js.data = s0 :: s1 :: r →
      ((findTokens s0).length % 2 ≠ 0 → udf_cell name js = .error .malformedSpec) ∧
      ((findTokens s0).length % 2 = 0 → (findTokens s1).length % 2 ≠ 0 →
        udf_cell name js = .error .malformedSpec) ∧
      ((findTokens s0).length % 2 = 0 → (findTokens s1).length % 2 = 0 →
        udf_cell name js =
          .ok ⟨pairUp (findTokens s0), pairUp (findTokens s1), name, js⟩)) ∧
    udf_cell "u" "\x7b\x7ba:int,b:string\x7d\x7d\x7b\x7bc:float\x7d\x7d" =
      .ok ⟨[("a", "int"), ("b", "string")], [("c", "float")], "u",
        "\x7b\x7ba:int,b:string\x7d\x7d\x7b\x7bc:float\x7d\x7d"⟩ := by
  refine ⟨?_, ?_, ?_⟩
  · intro hlt
    rcases hs : findSpecs js.data with _ | ⟨s0, _ | ⟨s1, r⟩⟩
    · simp [udf_cell, hname, hs]
    · simp [udf_cell, hname, hs]
    · rw [hs] at hlt; simp at hlt; omega
  · intro s0 s1 r hs
    refine ⟨?_, ?_, ?_⟩
    · intro hodd; simp [udf_cell, hname, hs, hodd]
    · intro he hodd; simp [udf_cell, hname, hs, he, hodd]
    · intro he ho; simp [udf_cell, hname, hs, he, ho]
  · simp [udf_cell, findSpecs, findTokens, pairUp, lbrace, rbrace, notRBrace,
      isIdentStart, isIdentCont, String.data]

/-- Witness for C4: a source with no bracket group, one with an
odd-token first group, and the fully parsed example. -/
theorem claim_C4_udf_spec_extraction_witness :
    udf_cell "u" "no groups here" = .error .missingSpec ∧
    udf_cell "u" "\x7b\x7ba:int,b\x7d\x7d\x7b\x7bc:float\x7d\x7d" =
      .error .malformedSpec ∧
    udf_cell "u" "\x7b\x7ba:int,b:string\x7d\x7d\x7b\x7bc:float\x7d\x7d" =
      .ok ⟨[("a", "int"), ("b", "string")], [("c", "float")], "u",
        "\x7b\x7ba:int,b:string\x7d\x7d\x7b\x7bc:float\x7d\x7d"⟩ :=
  ⟨(claim_C4_udf_spec_extraction "no groups here" "u" (by decide)).1
      (by simp [findSpecs, lbrace, rbrace, notRBrace, String.data]),
   ((claim_C4_udf_spec_extraction "\x7b\x7ba:int,b\x7d\x7d\x7b\x7bc:float\x7d\x7d" "u"
        (by decide)).2.1 "a:int,b".data "c:float".data []
      (by simp [findSpecs, lbrace, rbrace, notRBrace, String.data])).1
      (by simp [findTokens, isIdentStart, isIdentCont, String.data]),
   (claim_C4_udf_spec_extraction "x" "u" (by decide)).2.2⟩

/-- C2: when the `--sql` name is bound in the environment to an
already-realized query object, `_get_query_argument` returns that exact
bound object for every override config (the config is not applied); in
particular the end-to-end `sample -c 5 -m random -p 10 -q name` invocation
whose body parses returns that bound object together with the
random-10-percent-count-5 sampling. -/
theorem claim_C2_bound_query_ignores_config (tmpl : TemplateResolver)
    (env : Env) (s : String) (id : Nat)
    (hbound : envLookup s env = some (.query id)) :
    (∀ args config, envLookup "sql" args = some (.str s) →
      get_query_argument tmpl args config env = .ok (.bound id)) ∧
    (∀ cell config, parse_config env cell = .ok config →
      sample_cell tmpl (sampleInvocationArgs s) cell env =
        .ok (.bound id, .random (.int 10) (.int 5))) := by
  have h1 : ∀ args config, envLookup "sql" args = some (.str s) →
      get_query_argument tmpl args config env = .ok (.bound id) := by
    intro args config hsql
    simp [get_query_argument, argGet, hsql, get_notebook_item, hbound]
  refine ⟨h1, ?_⟩
  intro cell config hparse
  have h2 := h1 (sampleInvocationArgs s) config
    (by simp [sampleInvocationArgs, envLookup])
  simp only [sampleInvocationArgs] at h2
  simp [sample_cell, hparse, h2, sampleInvocationArgs, argGet, envLookup, valueEqStr]

/-- Witness for C2: `myquery` bound to query 7 in the session, a body
config that parses, and an arbitrary template resolver. -/
theorem claim_C2_bound_query_ignores_config_witness :
    get_query_argument (fun _ _ => .error (.referenceNotFound "q"))
      (sampleInvocationArgs "myquery") (some (.dict [("count", .int 99)]))
      [("myquery", .query 7)] = .ok (.bound 7) ∧
    sample_cell (fun _ _ => .error (.referenceNotFound "q"))
      (sampleInvocationArgs "myquery") (some (.dict [("a", .str "hi")]))
      [("myquery", .query 7)] = .ok (.bound 7, .random (.int 10) (.int 5)) :=
  ⟨(claim_C2_bound_query_ignores_config (fun _ _ => .error (.referenceNotFound "q"))
        [("myquery", .query 7)] "myquery" 7 rfl).1
      (sampleInvocationArgs "myquery") (some (.dict [("count", .int 99)]))
      (by simp [sampleInvocationArgs, envLookup]),
   (claim_C2_bound_query_ignores_config (fun _ _ => .error (.referenceNotFound "q"))
        [("myquery", .query 7)] "myquery" 7 rfl).2
      (some (.dict [("a", .str "hi")])) (some (.dict [("a", .str "hi")]))
      (by simp [parse_config, replaceVars, replaceDictEntries, expand_var,
        startsWithDollar])⟩

/-- C9: for every ParsedArgs the table subparser can produce (only `rows`
and `cols` are ever set) and every table collaborator, `_table_line`'s
first lookup `args['table']` raises KeyError, so the handler never
returns — in particular never reaches the rendering branch. -/
theorem claim_C9_table_line_unreachable (rows : Int) (cols : Option String)
    (getTable : Value → Option (String × Bool)) :
    table_line getTable (tableParsedArgs rows cols) = .error (.keyError "table") ∧
    ∀ r, table_line getTable (tableParsedArgs rows cols) ≠ .ok r := by
  have h : table_line getTable (tableParsedArgs rows cols) =
      .error (.keyError "table") := by
    cases cols <;> rfl
  exact ⟨h, fun r hr => by rw [h] at hr; exact Except.noConfusion hr⟩

/-- Witness for C9 at the default flags and a collaborator that would
find any table. -/
theorem claim_C9_table_line_unreachable_witness :
    table_line (fun _ => some ("t", true)) (tableParsedArgs 25 none) =
      .error (.keyError "table") ∧
    table_line (fun _ => some ("t", true)) (tableParsedArgs 25 none) ≠
      .ok (.doesNotExist .null) :=
  ⟨(claim_C9_table_line_unreachable 25 none (fun _ => some ("t", true))).1,
   (claim_C9_table_line_unreachable 25 none (fun _ => some ("t", true))).2
     (.doesNotExist .null)⟩

/-- C10 (the code as written): `_pipeline_cell` run/dryrun builds its
substitution environment as the FunctionCall-only filtering of the
session environment — but a `$t` body reference to a session binding of
any other kind fails with AttributeError (the `startwith` misspelling in
`expand_var`), not with the unresolved-variable error the claim names,
and a `$f` reference to a FunctionCall binding fails identically. -/
theorem claim_C10_pipeline_filtered_env :
    filterFunctionCalls [("t", .table "ds.t1"), ("f", .functionCall "f")] =
      [("f", .functionCall "f")] ∧
    pipeline_cell (fun _ _ => .error (.referenceNotFound "q1"))
      pipelineInvocationArgs (some (.dict [("a", .str "$t")]))
      [("t", .table "ds.t1"), ("f", .functionCall "f")] =
        .error .attributeError ∧
    pipeline_cell (fun _ _ => .error (.referenceNotFound "q1"))
      pipelineInvocationArgs (some (.dict [("a", .str "$f")]))
      [("t", .table "ds.t1"), ("f", .functionCall "f")] =
        .error .attributeError := by
  refine ⟨by rfl, ?_, ?_⟩ <;>
    simp [pipeline_cell, argGet, envLookup, valueEqStr, filterFunctionCalls,
      isFunctionCall, pipelineInvocationArgs, parse_config, replaceVars,
      replaceDictEntries, expand_var, startsWithDollar]

/-- Witness for C7 at a concrete failed job and a concrete job with
non-fatal errors. -/
theorem claim_C7_job_outcomes_witness :
    extract_job_report ⟨true, "quota", []⟩ = .ok (.failureMsg "Extract" "quota") ∧
    load_job_report ⟨false, "", ["bad row"]⟩ =
      .ok (.completedWithErrors "Load" ["bad row"]) :=
  ⟨((claim_C7_job_outcomes ⟨true, "quota", []⟩).1 rfl).1,
   ((claim_C7_job_outcomes ⟨false, "", ["bad row"]⟩).2.1 rfl (by simp)).2⟩

/-! ## LRU cache lemmas -/

theorem cacheEraseKey_length_le (k : String) (c : Cache) :
    (cacheEraseKey k c).length ≤ c.length := by
  induction c with
  | nil => simp [cacheEraseKey]
  | cons e rest ih =>
    obtain ⟨k2, hv⟩ := e
    simp only [cacheEraseKey]
    split
    · simp
    · simp only [List.length_cons]; omega

theorem cacheFind_eraseKey_length (k : String) (c : Cache) (hv : Nat)
    (hf : cacheFind k c = some hv) :
    (cacheEraseKey k c).length + 1 = c.length := by
  induction c with
  | nil => simp [cacheFind] at hf
  | cons e rest ih =>
    obtain ⟨k2, w⟩ := e
    simp only [cacheFind] at hf
    simp only [cacheEraseKey]
    by_cases hk : k2 = k
    · simp [hk]
    · rw [if_neg hk] at hf
      rw [if_neg hk]
      have := ih hf
      simp only [List.length_cons]
      omega

theorem cacheEraseKey_of_not_mem (k : String) (c : Cache)
    (h : k ∉ cacheKeys c) : cacheEraseKey k c = c := by
  induction c with
  | nil => rfl
  | cons e rest ih =>
    obtain ⟨k2, w⟩ := e
    simp only [cacheKeys, List.map_cons, List.mem_cons] at h
    push_neg at h
    simp only [cacheEraseKey]
    rw [if_neg (fun he => h.1 he.symm)]
    rw [ih (by simpa [cacheKeys] using h.2)]

theorem cacheFind_of_mem (k : String) (c : Cache) (h : k ∈ cacheKeys c) :
    ∃ hv, cacheFind k c = some hv := by
  induction c with
  | nil => simp [cacheKeys] at h
  | cons e rest ih =>
    obtain ⟨k2, w⟩ := e
    simp only [cacheKeys, List.map_cons, List.mem_cons] at h
    simp only [cacheFind]
    by_cases hk : k2 = k
    · exact ⟨w, by rw [if_pos hk]⟩
    · rcases h with h | h
      · exact absurd h.symm hk
      · rw [if_neg hk]
        exact ih (by simpa [cacheKeys] using h)

theorem cacheKeys_eraseKey_subset (k k2 : String) (c : Cache)
    (h : k2 ∈ cacheKeys (cacheEraseKey k c)) : k2 ∈ cacheKeys c := by
  induction c with
  | nil => simpa [cacheEraseKey] using h
  | cons e rest ih =>
    obtain ⟨k3, w⟩ := e
    simp only [cacheEraseKey] at h
    by_cases hk : k3 = k
    · rw [if_pos hk] at h
      simp only [cacheKeys, List.map_cons, List.mem_cons]
      exact Or.inr (by simpa [cacheKeys] using h)
    · rw [if_neg hk] at h
      simp only [cacheKeys, List.map_cons, List.mem_cons] at h ⊢
      rcases h with h | h
      · exact Or.inl h
      · exact Or.inr (ih (by simpa [cacheKeys] using h))

theorem cacheStep_length_le (c : Cache) (op : CacheOp)
    (hc : c.length ≤ cacheCapacity) :
    (cacheStep c op).length ≤ cacheCapacity := by
  cases op with
  | get k =>
    simp only [cacheStep, cacheGet]
    cases hf : cacheFind k c with
    | none => simpa using hc
    | some hv =>
      have := cacheFind_eraseKey_length k c hv hf
      simp only [List.length_cons]
      omega
  | put k hv =>
    simp only [cacheStep, cachePut]
    have hle := cacheEraseKey_length_le k c
    split
    · rw [List.length_dropLast]
      simp only [List.length_cons]
      omega
    · rename_i hng
      omega

/-- C6: starting from the empty cache, any sequence of get/put operations
leaves at most 10 entries; a put of a fresh name into a full cache evicts
exactly the least-recently-touched entry (the new key list is the new
name followed by all old names but the last); and after a get touches a
cached name, a put of a fresh name never evicts the touched name. -/
theorem claim_C6_lru_cache (ops : List CacheOp) (c : Cache) (k kn : String) (hv : Nat)
    (hfull : c.length = cacheCapacity) (hnew : kn ∉ cacheKeys c)
    (hmem : k ∈ cacheKeys c) :
    (cacheRun ops).length ≤ cacheCapacity ∧
    cacheKeys (cachePut kn hv c) = kn :: (cacheKeys c).dropLast ∧
    k ∈ cacheKeys (cachePut kn hv (cacheGet k c).2) := by
  refine ⟨?_, ?_, ?_⟩
  · have hgen : ∀ (l : List CacheOp) (c0 : Cache), c0.length ≤ cacheCapacity →
        (l.foldl cacheStep c0).length ≤ cacheCapacity := by
      intro l
      induction l with
      | nil => intro c0 h0; simpa using h0
      | cons op rest ih =>
        intro c0 h0
        exact ih _ (cacheStep_length_le c0 op h0)
    exact hgen ops [] (by simp [cacheCapacity])
  · simp only [cachePut, cacheEraseKey_of_not_mem kn c hnew]
    rw [if_pos (by simp [List.length_cons, hfull])]
    have hne : c ≠ [] := by
      intro h0; rw [h0] at hfull; simp [cacheCapacity] at hfull
    rw [List.dropLast_cons_of_ne_nil hne]
    simp [cacheKeys, List.map_dropLast]
  · obtain ⟨h0, hf⟩ := cacheFind_of_mem k c hmem
    simp only [cacheGet, hf]
    have hknk : kn ≠ k := fun he => hnew (he ▸ hmem)
    have hkn2 : kn ∉ cacheKeys ((k, h0) :: cacheEraseKey k c) := by
      simp only [cacheKeys, List.map_cons, List.mem_cons]
      push_neg
      exact ⟨hknk, fun hm => hnew (cacheKeys_eraseKey_subset k kn c hm)⟩
    simp only [cachePut, cacheEraseKey_of_not_mem kn _ hkn2]
    split
    · rename_i hgt
      have hrest : cacheEraseKey k c ≠ [] := by
        intro h1
        rw [h1] at hgt
        simp [cacheCapacity] at hgt
      rw [List.dropLast_cons₂]
      rw [List.dropLast_cons_of_ne_nil hrest]
      simp [cacheKeys]
    · simp [cacheKeys]

/-- Witness for C6: a full 10-entry cache, a run of 11 distinct puts, a
get on the would-be victim protecting it. -/
theorem claim_C6_lru_cache_witness :
    (cacheRun ((List.range 11).map (fun i => CacheOp.put (toString i) i))).length ≤
      cacheCapacity ∧
    cacheKeys (cachePut "new" 99 [("k9", 9), ("k8", 8), ("k7", 7), ("k6", 6),
        ("k5", 5), ("k4", 4), ("k3", 3), ("k2", 2), ("k1", 1), ("k0", 0)]) =
      "new" :: ["k9", "k8", "k7", "k6", "k5", "k4", "k3", "k2", "k1"] ∧
    "k0" ∈ cacheKeys (cachePut "new" 99
      (cacheGet "k0" [("k9", 9), ("k8", 8), ("k7", 7), ("k6", 6), ("k5", 5),
        ("k4", 4), ("k3", 3), ("k2", 2), ("k1", 1), ("k0", 0)]).2) := by
  have h := claim_C6_lru_cache
    ((List.range 11).map (fun i => CacheOp.put (toString i) i))
    [("k9", 9), ("k8", 8), ("k7", 7), ("k6", 6), ("k5", 5), ("k4", 4),
      ("k3", 3), ("k2", 2), ("k1", 1), ("k0", 0)]
    "k0" "new" 99 (by rfl) (by decide) (by decide)
  exact ⟨h.1, by rw [h.2.1]; rfl, h.2.2⟩

end Datalab
